import Mathlib

/-!
Shallow embedding of the VTFS server (S1riyS/os-course-lab-4-server).

The embedding models one namespace (one token): every SQL query in the
repository layer filters on the token, so the per-token projection of the
four relations (`filesystems`, `inodes`, `directory_entries`,
`file_contents`) is a faithful state for all operations of
`internal/service/filesystem.go`.

Store steps that hit the database can fail; each service operation takes a
failure oracle `fail : Nat → Option FailKind` assigning to each store step
(numbered in source order) an optional injected failure.  `WithTransaction`
(pkg/database/postgresql/transaction.go) rolls back on any error of the
body, which the embedding mirrors by returning the pre-transaction state on
error.
-/

namespace VTFS

/-- Node types, from `internal/models/models.go` (`NodeTypeDir = 0`,
`NodeTypeFile = 1`). -/
inductive NodeType
  | dir
  | file
deriving DecidableEq, Repr

/-- Inode row, from `models.Inode` / table `inodes` (migrations/001_init.sql);
the token column is implicit (single-namespace state). -/
structure Inode where
  ino : Int
  type : NodeType
  mode : Nat
  size : Int
  refCount : Int
deriving DecidableEq, Repr

/-- Directory entry row, from table `directory_entries`. -/
structure DirEntry where
  parentIno : Int
  name : String
  ino : Int
deriving DecidableEq, Repr

/-- File content row, from table `file_contents` (`data BYTEA`). -/
structure Content where
  ino : Int
  data : List Nat
deriving DecidableEq, Repr

/-- Directory listing element, from `models.Dirent`. -/
structure Dirent where
  name : String
  ino : Int
  type : NodeType
deriving DecidableEq, Repr

/-- Node metadata returned to the handler, from `models.NodeMeta`. -/
structure NodeMeta where
  ino : Int
  parentIno : Int
  type : NodeType
  mode : Nat
  size : Int
deriving DecidableEq, Repr

/-- Persisted state of one namespace: `fsRow` is the `next_ino` column of the
`filesystems` row when that row exists (`root_ino` is the constant 1000). -/
structure St where
  fsRow : Option Int
  inodes : List Inode
  entries : List DirEntry
  contents : List Content
deriving DecidableEq, Repr

/-! Error-code constants from `internal/pkg/kerrors` (positive Linux errno
values, with explicitly negated variants for the wire). -/

def EPERM : Int := 1
def ENOENT : Int := 2
def ENOMEM : Int := 12
def EEXIST : Int := 17
def ENOTDIR : Int := 20
def EISDIR : Int := 21
def EINVAL : Int := 22
def ENOTEMPTY : Int := 39
def ENOMEM_NEG : Int := -ENOMEM
def EINVAL_NEG : Int := -EINVAL

/-! Mode constants from `internal/service/filesystem.go`. -/

def VTFS_ROOT_INO : Int := 1000
def VTFS_ROOT_MODE : Nat := 0o777
def S_IFDIR : Nat := 0o040000
def S_IFREG : Nat := 0o100000
def S_IRWXUGO : Nat := 0o777

/-- Failure kinds an injected store failure can carry: a PostgreSQL
unique-constraint violation (pq error code 23505) or any other database
error. -/
inductive FailKind
  | uniqueViolation
  | dbError
deriving DecidableEq, Repr

/-- Errors a service operation returns: `svc code` is a
`service.ServiceError` carrying a kerrors code, `internal` is any other
(wrapped) error. -/
inductive Err
  | svc (code : Int)
  | internal
deriving DecidableEq, Repr

deriving instance DecidableEq for Except

/-- Result of one injectable store step: the oracle either injects a failure
at step `n` or the step proceeds. -/
def check (fail : Nat → Option FailKind) (n : Nat) : Except FailKind Unit :=
  match fail n with
  | some k => .error k
  | none => .ok ()

/-- Oracle injecting no failures. -/
def noFail : Nat → Option FailKind := fun _ => none

/-! Repository layer, translated from `internal/repository` and the schema
constraints of `migrations/001_init.sql`. -/

/-- `inodeRepository.Get`: `SELECT ... FROM inodes WHERE token AND ino`
(`nil` on no rows). -/
def inodeGet (s : St) (ino : Int) : Option Inode :=
  s.inodes.find? (fun i => i.ino == ino)

/-- `inodeRepository.IsDir`: type of the row, `false` when the row is
missing. -/
def inodeIsDir (s : St) (ino : Int) : Bool :=
  match inodeGet s ino with
  | some i => i.type == .dir
  | none => false

/-- `inodeRepository.IsFile`. -/
def inodeIsFile (s : St) (ino : Int) : Bool :=
  match inodeGet s ino with
  | some i => i.type == .file
  | none => false

/-- `inodeRepository.Create`: plain `INSERT INTO inodes`; the primary key
`(token, ino)` makes a duplicate ino a unique violation. -/
def inodeCreate (s : St) (i : Inode) : Except FailKind St :=
  if (inodeGet s i.ino).isSome then .error .uniqueViolation
  else .ok { s with inodes := s.inodes ++ [i] }

/-- `inodeRepository.UpdateSize`: `UPDATE inodes SET size WHERE token AND
ino` (no error when no row matches). -/
def inodeUpdateSize (s : St) (ino : Int) (size : Int) : St :=
  { s with inodes := s.inodes.map (fun i => if i.ino == ino then { i with size := size } else i) }

/-- `inodeRepository.UpdateRefCount`: relative adjustment `SET ref_count =
ref_count + delta`. -/
def inodeUpdateRefCount (s : St) (ino : Int) (delta : Int) : St :=
  { s with inodes := s.inodes.map (fun i => if i.ino == ino then { i with refCount := i.refCount + delta } else i) }

/-- `inodeRepository.Delete` together with the schema's `ON DELETE CASCADE`:
deleting an inode also deletes every directory entry whose `ino` or
`parent_ino` references it and its `file_contents` row
(migrations/001_init.sql). -/
def inodeDelete (s : St) (ino : Int) : St :=
  { s with
    inodes := s.inodes.filter (fun i => i.ino != ino)
    entries := s.entries.filter (fun e => e.ino != ino && e.parentIno != ino)
    contents := s.contents.filter (fun c => c.ino != ino) }

/-- `directoryRepository.Lookup`: returns the bound ino, or 0 when the entry
is absent (the Go code maps `pgx.ErrNoRows` to ino 0). -/
def dirLookup (s : St) (parent : Int) (name : String) : Int :=
  match s.entries.find? (fun e => e.parentIno == parent && e.name == name) with
  | some e => e.ino
  | none => 0

/-- `directoryRepository.Exists`. -/
def dirExists (s : St) (parent : Int) (name : String) : Bool :=
  s.entries.any (fun e => e.parentIno == parent && e.name == name)

/-- `directoryRepository.CreateEntry`: plain `INSERT INTO directory_entries`;
the primary key `(token, parent_ino, name)` makes a duplicate name a unique
violation, and the foreign keys on `ino` and `parent_ino` towards `inodes`
reject a missing referent with a (non-unique-violation) database error. -/
def dirCreateEntry (s : St) (parent : Int) (name : String) (ino : Int) : Except FailKind St :=
  if dirExists s parent name then .error .uniqueViolation
  else if (inodeGet s parent).isNone || (inodeGet s ino).isNone then .error .dbError
  else .ok { s with entries := s.entries ++ [⟨parent, name, ino⟩] }

/-- `directoryRepository.DeleteEntry`: `DELETE FROM directory_entries WHERE
token AND parent_ino AND name`. -/
def dirDeleteEntry (s : St) (parent : Int) (name : String) : St :=
  { s with entries := s.entries.filter (fun e => !(e.parentIno == parent && e.name == name)) }

/-- `directoryRepository.IsEmpty`: `COUNT(*)` of entries with the given
parent equals zero. -/
def dirIsEmpty (s : St) (dirIno : Int) : Bool :=
  (s.entries.filter (fun e => e.parentIno == dirIno)).length == 0

/-- One row of `directoryRepository.GetEntries`' join with `inodes`; an entry
whose target inode is missing is dropped by the `JOIN`. -/
def direntOf (s : St) (e : DirEntry) : Option Dirent :=
  (inodeGet s e.ino).map (fun i => ⟨e.name, e.ino, i.type⟩)

/-- Lexicographic order on character lists by code point, the order
`ORDER BY name` ascending sorts by. -/
def charListLe : List Char → List Char → Bool
  | [], _ => true
  | _ :: _, [] => false
  | a :: as, b :: bs =>
    if a.toNat < b.toNat then true
    else if b.toNat < a.toNat then false
    else charListLe as bs

/-- Name order of the directory enumeration. -/
def strLe (a b : String) : Bool :=
  charListLe a.data b.data

/-- Insertion into a name-sorted directory listing. -/
def insertDirent (d : Dirent) : List Dirent → List Dirent
  | [] => [d]
  | e :: es => if strLe d.name e.name then d :: e :: es else e :: insertDirent d es

/-- Name-ascending sort of a directory listing. -/
def sortDirents : List Dirent → List Dirent
  | [] => []
  | d :: ds => insertDirent d (sortDirents ds)

/-- `directoryRepository.GetEntries` / the common query of
`GetEntryByOffset`: entries of the parent joined with `inodes`,
`ORDER BY de.name` ascending. -/
def enumerateOrdered (s : St) (parent : Int) : List Dirent :=
  sortDirents ((s.entries.filter (fun e => e.parentIno == parent)).filterMap (direntOf s))

/-- `directoryRepository.GetEntryByOffset`: `LIMIT 1 OFFSET $3` over the
ordered enumeration, `nil` past the end. -/
def getEntryByOffset (s : St) (parent : Int) (offset : Nat) : Option Dirent :=
  (enumerateOrdered s parent).get? offset

/-- `contentRepository.Get`: the `data` column, empty when the row is
absent. -/
def contentFind (s : St) (ino : Int) : Option (List Nat) :=
  (s.contents.find? (fun c => c.ino == ino)).map Content.data

/-- `contentRepository.Get` returns an empty byte slice for a missing row. -/
def contentGet (s : St) (ino : Int) : List Nat :=
  (contentFind s ino).getD []

/-- `contentRepository.GetRange`: fetch the whole blob and clamp
`offset, length` against its length; short reads never error. -/
def contentGetRange (s : St) (ino : Int) (offset : Int) (length : Int) : List Nat :=
  let data := contentGet s ino
  let dataLen : Int := data.length
  if offset ≥ dataLen then []
  else
    let available := dataLen - offset
    let toRead := if length > available then available else length
    (data.drop offset.toNat).take toRead.toNat

/-- `contentRepository.Set`: upsert of the whole blob (`ON CONFLICT DO
UPDATE`); the foreign key towards `inodes` rejects a missing inode. -/
def contentSet (s : St) (ino : Int) (data : List Nat) : Except FailKind St :=
  if (inodeGet s ino).isNone then .error .dbError
  else if (contentFind s ino).isSome then
    .ok { s with contents := s.contents.map (fun c => if c.ino == ino then ⟨ino, data⟩ else c) }
  else .ok { s with contents := s.contents ++ [⟨ino, data⟩] }

/-- `contentRepository.Delete`: `DELETE FROM file_contents WHERE token AND
ino`. -/
def contentDelete (s : St) (ino : Int) : St :=
  { s with contents := s.contents.filter (fun c => c.ino != ino) }

/-- `filesystemRepository.GetNextIno`: `SELECT next_ino FROM filesystems`;
the Go code does not special-case `ErrNoRows`, so a missing namespace row is
a database error. -/
def getNextIno (s : St) : Except FailKind Int :=
  match s.fsRow with
  | some n => .ok n
  | none => .error .dbError

/-- `filesystemRepository.IncrementNextIno`: `SET next_ino = next_ino + 1`
(no error when no row matches). -/
def incrementNextIno (s : St) : St :=
  { s with fsRow := s.fsRow.map (fun n => n + 1) }

/-- The root inode `filesystemRepository.GetOrCreate` inserts: ino 1000,
directory, mode `VTFS_ROOT_MODE`, size 0, ref_count 1. -/
def rootInode : Inode :=
  { ino := VTFS_ROOT_INO, type := .dir, mode := VTFS_ROOT_MODE, size := 0, refCount := 1 }

/-- `filesystemRepository.GetOrCreate`: returns the existing namespace, or
inserts the `filesystems` row (next_ino 1001) and the root inode in one
transaction; inserting the root inode while an inode 1000 already exists is
a unique violation that rolls the transaction back. -/
def fsGetOrCreate (s : St) : Except FailKind St :=
  match s.fsRow with
  | some _ => .ok s
  | none =>
    if (inodeGet s VTFS_ROOT_INO).isSome then .error .uniqueViolation
    else .ok { s with fsRow := some (VTFS_ROOT_INO + 1), inodes := s.inodes ++ [rootInode] }

/-! Service layer, translated from `internal/service/filesystem.go`.  Each
operation returns its result paired with the persisted state after the call;
`WithTransaction` commits the body's state on success and returns the
pre-transaction state on error (rollback). -/

/-- Mode reported in a `NodeMeta`: the stored mode's permission bits under
the kind flag (`S_IFDIR`/`S_IFREG`), as computed on every success path of
`GetRoot`, `Lookup`, `CreateFile` and `CreateDir`. -/
def metaModeBits (t : NodeType) (mode : Nat) : Nat :=
  match t with
  | .dir => S_IFDIR ||| (mode &&& S_IRWXUGO)
  | .file => S_IFREG ||| (mode &&& S_IRWXUGO)

/-- `NodeMeta` built from an inode and the parent ino, as on every success
path returning metadata. -/
def mkMeta (i : Inode) (parentIno : Int) : NodeMeta :=
  { ino := i.ino, parentIno := parentIno, type := i.type, mode := metaModeBits i.type i.mode, size := i.size }

/-- Error mapping applied to a transaction error by `CreateFile`,
`CreateDir` and `Link`: a pq unique violation (code 23505) becomes the same
`EEXIST` the pre-check would have produced, everything else is wrapped. -/
def createErrMap (k : FailKind) : Err :=
  match k with
  | .uniqueViolation => .svc EEXIST
  | .dbError => .internal

/-- `fileSystemService.Init`: `EEXIST` when the namespace row already
exists, otherwise create it via `GetOrCreate`. -/
def init (fail : Nat → Option FailKind) (s : St) : Except Err Unit × St :=
  if (fail 0).isSome then (.error .internal, s)
  else
    match s.fsRow with
    | some _ => (.error (.svc EEXIST), s)
    | none =>
      match fsGetOrCreate s with
      | .ok s1 => (.ok (), s1)
      | .error _ => (.error .internal, s)

/-- `fileSystemService.GetRoot`: get-or-create the namespace, then fetch
inode 1000 and report its metadata with `ParentIno = VTFS_ROOT_INO`. -/
def getRoot (fail : Nat → Option FailKind) (s : St) : Except Err NodeMeta × St :=
  if (fail 0).isSome then (.error .internal, s)
  else
    match fsGetOrCreate s with
    | .error _ => (.error .internal, s)
    | .ok s1 =>
      if (fail 1).isSome then (.error .internal, s1)
      else
        match inodeGet s1 VTFS_ROOT_INO with
        | none => (.error (.svc ENOENT), s1)
        | some inode => (.ok (mkMeta inode VTFS_ROOT_INO), s1)

/-- `fileSystemService.Lookup`: parent must be a directory, the name must be
bound, and the target inode must exist. -/
def lookup (fail : Nat → Option FailKind) (s : St) (parentIno : Int) (name : String) :
    Except Err NodeMeta × St :=
  if (fail 0).isSome then (.error .internal, s)
  else if !(inodeIsDir s parentIno) then (.error (.svc ENOTDIR), s)
  else if (fail 1).isSome then (.error .internal, s)
  else
    let ino := dirLookup s parentIno name
    if ino == 0 then (.error (.svc ENOENT), s)
    else if (fail 2).isSome then (.error .internal, s)
    else
      match inodeGet s ino with
      | none => (.error (.svc ENOENT), s)
      | some inode => (.ok (mkMeta inode parentIno), s)

/-- `fileSystemService.IterateDir`: entry of the ordered enumeration at the
caller's offset; the offset is incremented only on success (the Go code
increments the by-reference offset just before returning the entry). -/
def iterateDir (fail : Nat → Option FailKind) (s : St) (dirIno : Int) (offset : Nat) :
    Except Err Dirent × Nat :=
  if (fail 0).isSome then (.error .internal, offset)
  else if !(inodeIsDir s dirIno) then (.error (.svc ENOTDIR), offset)
  else if (fail 1).isSome then (.error .internal, offset)
  else
    match getEntryByOffset s dirIno offset with
    | none => (.error (.svc ENOENT), offset)
    | some dirent => (.ok dirent, offset + 1)

/-- Transaction body of `CreateFile`: allocate the ino, insert the inode
(kind File, ref_count 1), insert the directory entry, bump the namespace
counter, create empty content. -/
def createFileTx (fail : Nat → Option FailKind) (s : St) (parentIno : Int) (name : String)
    (mode : Nat) : Except FailKind (Inode × St) := do
  check fail 2
  let newIno ← getNextIno s
  let inode : Inode := { ino := newIno, type := .file, mode := mode, size := 0, refCount := 1 }
  check fail 3
  let s1 ← inodeCreate s inode
  check fail 4
  let s2 ← dirCreateEntry s1 parentIno name newIno
  check fail 5
  let s3 := incrementNextIno s2
  check fail 6
  let s4 ← contentSet s3 newIno []
  pure (inode, s4)

/-- `fileSystemService.CreateFile`: pre-checks (parent is a directory, name
unused), then the atomic transaction; a unique violation surfacing from the
transaction is mapped to `EEXIST`. -/
def createFile (fail : Nat → Option FailKind) (s : St) (parentIno : Int) (name : String)
    (mode : Nat) : Except Err NodeMeta × St :=
  if (fail 0).isSome then (.error .internal, s)
  else if !(inodeIsDir s parentIno) then (.error (.svc ENOTDIR), s)
  else if (fail 1).isSome then (.error .internal, s)
  else if dirExists s parentIno name then (.error (.svc EEXIST), s)
  else
    match createFileTx fail s parentIno name mode with
    | .ok (inode, s1) => (.ok (mkMeta inode parentIno), s1)
    | .error k => (.error (createErrMap k), s)

/-- Transaction body of `CreateDir`: the same steps as `CreateFile` without
the content step. -/
def createDirTx (fail : Nat → Option FailKind) (s : St) (parentIno : Int) (name : String)
    (mode : Nat) : Except FailKind (Inode × St) := do
  check fail 2
  let newIno ← getNextIno s
  let inode : Inode := { ino := newIno, type := .dir, mode := mode, size := 0, refCount := 1 }
  check fail 3
  let s1 ← inodeCreate s inode
  check fail 4
  let s2 ← dirCreateEntry s1 parentIno name newIno
  check fail 5
  pure (inode, incrementNextIno s2)

/-- `fileSystemService.CreateDir`. -/
def createDir (fail : Nat → Option FailKind) (s : St) (parentIno : Int) (name : String)
    (mode : Nat) : Except Err NodeMeta × St :=
  if (fail 0).isSome then (.error .internal, s)
  else if !(inodeIsDir s parentIno) then (.error (.svc ENOTDIR), s)
  else if (fail 1).isSome then (.error .internal, s)
  else if dirExists s parentIno name then (.error (.svc EEXIST), s)
  else
    match createDirTx fail s parentIno name mode with
    | .ok (inode, s1) => (.ok (mkMeta inode parentIno), s1)
    | .error k => (.error (createErrMap k), s)

/-- Transaction body of `Unlink`: delete the entry, decrement the target's
ref_count, re-read the inode, and when the count reached zero delete content
and inode. -/
def unlinkTx (fail : Nat → Option FailKind) (s : St) (parentIno : Int) (name : String)
    (ino : Int) : Except FailKind St := do
  check fail 2
  let s1 := dirDeleteEntry s parentIno name
  check fail 3
  let s2 := inodeUpdateRefCount s1 ino (-1)
  check fail 4
  match inodeGet s2 ino with
  | some inode =>
    if inode.refCount == 0 then do
      check fail 5
      let s3 := contentDelete s2 ino
      check fail 6
      pure (inodeDelete s3 ino)
    else pure s2
  | none => pure s2

/-- `fileSystemService.Unlink`: `ENOENT` when the entry is absent, `EPERM`
when the target is not a regular file, otherwise the atomic transaction. -/
def unlink (fail : Nat → Option FailKind) (s : St) (parentIno : Int) (name : String) :
    Except Err Unit × St :=
  if (fail 0).isSome then (.error .internal, s)
  else
    let ino := dirLookup s parentIno name
    if ino == 0 then (.error (.svc ENOENT), s)
    else if (fail 1).isSome then (.error .internal, s)
    else if !(inodeIsFile s ino) then (.error (.svc EPERM), s)
    else
      match unlinkTx fail s parentIno name ino with
      | .ok s1 => (.ok (), s1)
      | .error _ => (.error .internal, s)

/-- Transaction body of `Rmdir`: delete the entry, delete the inode. -/
def rmdirTx (fail : Nat → Option FailKind) (s : St) (parentIno : Int) (name : String)
    (ino : Int) : Except FailKind St := do
  check fail 3
  let s1 := dirDeleteEntry s parentIno name
  check fail 4
  pure (inodeDelete s1 ino)

/-- `fileSystemService.Rmdir`: `ENOENT` when the entry is absent, `ENOTDIR`
when the target is not a directory, `EPERM` on the root inode, `ENOTEMPTY`
when the directory has entries, otherwise the atomic transaction. -/
def rmdir (fail : Nat → Option FailKind) (s : St) (parentIno : Int) (name : String) :
    Except Err Unit × St :=
  if (fail 0).isSome then (.error .internal, s)
  else
    let ino := dirLookup s parentIno name
    if ino == 0 then (.error (.svc ENOENT), s)
    else if (fail 1).isSome then (.error .internal, s)
    else if !(inodeIsDir s ino) then (.error (.svc ENOTDIR), s)
    else if ino == VTFS_ROOT_INO then (.error (.svc EPERM), s)
    else if (fail 2).isSome then (.error .internal, s)
    else if !(dirIsEmpty s ino) then (.error (.svc ENOTEMPTY), s)
    else
      match rmdirTx fail s parentIno name ino with
      | .ok s1 => (.ok (), s1)
      | .error _ => (.error .internal, s)

/-- `fileSystemService.Read`: returns the bytes read (the Go code copies
them into the caller's buffer of length `bufLen` and returns their count);
reads at or past end of file return zero bytes with success. -/
def read (fail : Nat → Option FailKind) (s : St) (ino : Int) (bufLen : Nat) (offset : Int) :
    Except Err (List Nat) :=
  if (fail 0).isSome then .error .internal
  else
    match inodeGet s ino with
    | none => .error (.svc ENOENT)
    | some inode =>
      if inode.type != .file then .error (.svc EISDIR)
      else if offset < 0 then .error (.svc EINVAL)
      else
        let available := inode.size - offset
        if available ≤ 0 then .ok []
        else
          let toRead := if (bufLen : Int) > available then available else (bufLen : Int)
          if (fail 1).isSome then .error .internal
          else .ok (contentGetRange s ino offset toRead)

/-- Go's `copy(dst[off:], src)` for `off ≤ dst.length`: overwrites
`min (dst.length - off) src.length` elements of `dst` starting at `off`. -/
def goCopy (dst : List Nat) (off : Nat) (src : List Nat) : List Nat :=
  dst.take off ++ src.take (dst.length - off) ++ dst.drop (off + min src.length (dst.length - off))

/-- Transaction body of `Write`: fetch the whole content, zero-extend it
when `offset + length` exceeds its length, overwrite in place, store it
back, and sync the inode size to the new content length. -/
def writeTx (fail : Nat → Option FailKind) (s : St) (ino : Int) (writeData : List Nat)
    (offset : Int) : Except FailKind St := do
  check fail 1
  let currentData := contentGet s ino
  let newSize : Int := offset + writeData.length
  let extended :=
    if newSize > (currentData.length : Int) then
      currentData ++ List.replicate (newSize - currentData.length).toNat 0
    else currentData
  let written := goCopy extended offset.toNat writeData
  check fail 2
  let s1 ← contentSet s ino written
  check fail 3
  pure (inodeUpdateSize s1 ino written.length)

/-- `fileSystemService.Write`: `EINVAL` when the claimed length exceeds the
buffer or the offset is negative, `ENOENT`/`EISDIR` checks, then the atomic
transaction; returns the claimed length on success. -/
def write (fail : Nat → Option FailKind) (s : St) (ino : Int) (data : List Nat) (length : Nat)
    (offset : Int) : Except Err Int × St :=
  if length > data.length then (.error (.svc EINVAL), s)
  else if offset < 0 then (.error (.svc EINVAL), s)
  else
    let writeData := data.take length
    if (fail 0).isSome then (.error .internal, s)
    else
      match inodeGet s ino with
      | none => (.error (.svc ENOENT), s)
      | some inode =>
        if inode.type != .file then (.error (.svc EISDIR), s)
        else
          match writeTx fail s ino writeData offset with
          | .ok s1 => (.ok (length : Int), s1)
          | .error _ => (.error .internal, s)

/-- Transaction body of `Link`: insert the entry pointing at the target and
increment the target's ref_count. -/
def linkTx (fail : Nat → Option FailKind) (s : St) (targetIno : Int) (parentIno : Int)
    (name : String) : Except FailKind St := do
  check fail 2
  let s1 ← dirCreateEntry s parentIno name targetIno
  check fail 3
  pure (inodeUpdateRefCount s1 targetIno 1)

/-- `fileSystemService.Link`: the target must exist and be a regular file
and the name must be unused (the parent's kind is not checked), then the
atomic transaction; a unique violation is mapped to `EEXIST`. -/
def link (fail : Nat → Option FailKind) (s : St) (targetIno : Int) (parentIno : Int)
    (name : String) : Except Err Unit × St :=
  if (fail 0).isSome then (.error .internal, s)
  else
    match inodeGet s targetIno with
    | none => (.error (.svc ENOENT), s)
    | some target =>
      if target.type != .file then (.error (.svc EISDIR), s)
      else if (fail 1).isSome then (.error .internal, s)
      else if dirExists s parentIno name then (.error (.svc EEXIST), s)
      else
        match linkTx fail s targetIno parentIno name with
        | .ok s1 => (.ok (), s1)
        | .error k => (.error (createErrMap k), s)

/-- `fileSystemService.CountLinks`: the target inode's ref_count. -/
def countLinks (fail : Nat → Option FailKind) (s : St) (ino : Int) : Except Err Int :=
  if (fail 0).isSome then .error .internal
  else
    match inodeGet s ino with
    | none => .error (.svc ENOENT)
    | some inode => .ok inode.refCount

/-- `handler.mapErrorToCode`: a `ServiceError` contributes its `Code` field
unchanged; every other error becomes the negated out-of-memory code. -/
def mapErrorToCode (e : Err) : Int :=
  match e with
  | .svc code => code
  | .internal => ENOMEM_NEG

/-- Code field of the response frame the handler emits for a service-layer
result: 0 on success, `mapErrorToCode` of the error otherwise (the handler
passes exactly this value to the wire writer). -/
def responseFrameCode {α : Type} (r : Except Err α) : Int :=
  match r with
  | .ok _ => 0
  | .error e => mapErrorToCode e

/-- Number of directory entries whose target is the given inode (the
right-hand side of the spec's ref-count identity). -/
def targetCount (s : St) (ino : Int) : Nat :=
  (s.entries.filter (fun e => e.ino == ino)).length

/-- A state right after `Init`: the namespace row (next_ino 1001) and the
root inode, nothing else. -/
def initialState : St :=
  { fsRow := some (VTFS_ROOT_INO + 1), inodes := [rootInode], entries := [], contents := [] }

/-- A state whose root directory carries an entry "self" resolving to the
root inode itself (Rmdir can then address the root). -/
def c5State : St :=
  { fsRow := some 1001, inodes := [rootInode],
    entries := [{ parentIno := 1000, name := "self", ino := 1000 }], contents := [] }
/-- Root plus an empty directory 1001 bound as "d". -/
def c6EmptyState : St :=
  { fsRow := some 1002,
    inodes := [rootInode, { ino := 1001, type := .dir, mode := 493, size := 0, refCount := 1 }],
    entries := [{ parentIno := 1000, name := "d", ino := 1001 }], contents := [] }
/-- Root plus directory 1001 bound as "d" holding a file entry "f". -/
def c6FullState : St :=
  { fsRow := some 1003,
    inodes := [rootInode,
      { ino := 1001, type := .dir, mode := 493, size := 0, refCount := 1 },
      { ino := 1002, type := .file, mode := 420, size := 0, refCount := 1 }],
    entries := [{ parentIno := 1000, name := "d", ino := 1001 },
      { parentIno := 1001, name := "f", ino := 1002 }],
    contents := [{ ino := 1002, data := [] }] }
/-- Root plus a file 1001 with two hard links "a" and "b". -/
def c7State : St :=
  { fsRow := some 1002,
    inodes := [rootInode, { ino := 1001, type := .file, mode := 420, size := 0, refCount := 2 }],
    entries := [{ parentIno := 1000, name := "a", ino := 1001 },
      { parentIno := 1000, name := "b", ino := 1001 }],
    contents := [{ ino := 1001, data := [] }] }
/-- Root plus an empty file 1001 bound as "f". -/
def c3State : St :=
  { fsRow := some 1002,
    inodes := [rootInode, { ino := 1001, type := .file, mode := 420, size := 0, refCount := 1 }],
    entries := [{ parentIno := 1000, name := "f", ino := 1001 }],
    contents := [{ ino := 1001, data := [] }] }
/-- Root plus a 15-byte file 1001 (10 zeros then five written bytes). -/
def c4State : St :=
  { fsRow := some 1002,
    inodes := [rootInode, { ino := 1001, type := .file, mode := 420, size := 15, refCount := 1 }],
    entries := [{ parentIno := 1000, name := "f", ino := 1001 }],
    contents := [{ ino := 1001, data := [0, 0, 0, 0, 0, 0, 0, 0, 0, 0, 7, 8, 9, 10, 11] }] }
/-- State reached from a fresh namespace by CreateFile(root, "a", 0644),
CreateFile(root, "b", 0644), Link(target 1002, parent 1001, "x"),
Unlink(root, "a"), with no injected store failures. -/
def c2FinalState : St :=
  (unlink noFail
    (link noFail
      (createFile noFail
        (createFile noFail initialState 1000 "a" 420).snd
        1000 "b" 420).snd
      1002 1001 "x").snd
    1000 "a").snd

/-! Generic `List.find?` helpers for the row-update patterns of the
repository layer. -/

lemma find?_map_of_pred_inv {α : Type} (f : α → α) (p : α → Bool) (l : List α)
    (hp : ∀ a, p (f a) = p a) : (l.map f).find? p = (l.find? p).map f := by
  induction l with
  | nil => rfl
  | cons a l ih =>
    by_cases h : p a = true
    · rw [List.map_cons, List.find?_cons_of_pos _ ((hp a).trans h),
        List.find?_cons_of_pos _ h, Option.map_some']
    · rw [List.map_cons, List.find?_cons_of_neg _ (by simp [hp a, h]),
        List.find?_cons_of_neg _ h, ih]

lemma find?_filter_none {α : Type} (p q : α → Bool) (l : List α)
    (h : ∀ a, p a = true → q a = false) : (l.filter q).find? p = none := by
  induction l with
  | nil => rfl
  | cons a l ih =>
    by_cases hq : q a = true
    · rw [List.filter_cons_of_pos hq, List.find?_cons_of_neg]
      · exact ih
      · intro hpa
        rw [h a hpa] at hq
        exact Bool.false_ne_true hq
    · rw [List.filter_cons_of_neg (by simpa using hq)]
      exact ih

lemma find?_filter_sub {α : Type} (p q : α → Bool) (l : List α)
    (h : ∀ a, p a = true → q a = true) : (l.filter q).find? p = l.find? p := by
  induction l with
  | nil => rfl
  | cons a l ih =>
    by_cases hpa : p a = true
    · rw [List.filter_cons_of_pos (h a hpa), List.find?_cons_of_pos _ hpa,
        List.find?_cons_of_pos _ hpa]
    · by_cases hq : q a = true
      · rw [List.filter_cons_of_pos hq, List.find?_cons_of_neg _ hpa,
          List.find?_cons_of_neg _ hpa, ih]
      · rw [List.filter_cons_of_neg (by simpa using hq), List.find?_cons_of_neg _ hpa, ih]

lemma find?_append_of_none {α : Type} (p : α → Bool) (l₁ l₂ : List α)
    (h : l₁.find? p = none) : (l₁ ++ l₂).find? p = l₂.find? p := by
  induction l₁ with
  | nil => rfl
  | cons a l ih =>
    by_cases hpa : p a = true
    · rw [List.find?_cons_of_pos _ hpa] at h
      exact absurd h (by simp)
    · rw [List.find?_cons_of_neg _ hpa] at h
      rw [List.cons_append, List.find?_cons_of_neg _ hpa, ih h]

/-! Repository-level facts used by the claim proofs. -/

lemma inodeGet_updateRefCount (s : St) (ino delta : Int) :
    inodeGet (inodeUpdateRefCount s ino delta) ino
      = (inodeGet s ino).map (fun j => { j with refCount := j.refCount + delta }) := by
  unfold inodeGet inodeUpdateRefCount
  rw [show (fun j : Inode => if j.ino == ino then { j with refCount := j.refCount + delta } else j)
      = (fun j : Inode => if (j.ino == ino) = true then { j with refCount := j.refCount + delta } else j) by simp]
  rw [find?_map_of_pred_inv _ _ _ (fun a => by by_cases h : a.ino == ino <;> simp [h])]
  cases h : List.find? (fun i => i.ino == ino) s.inodes with
  | none => rfl
  | some j =>
    have hj : j.ino = ino := by simpa using List.find?_some h
    simp [hj]

lemma inodeGet_updateSize (s : St) (ino size : Int) :
    inodeGet (inodeUpdateSize s ino size) ino
      = (inodeGet s ino).map (fun j => { j with size := size }) := by
  unfold inodeGet inodeUpdateSize
  rw [show (fun j : Inode => if j.ino == ino then { j with size := size } else j)
      = (fun j : Inode => if (j.ino == ino) = true then { j with size := size } else j) by simp]
  rw [find?_map_of_pred_inv _ _ _ (fun a => by by_cases h : a.ino == ino <;> simp [h])]
  cases h : List.find? (fun i => i.ino == ino) s.inodes with
  | none => rfl
  | some j =>
    have hj : j.ino = ino := by simpa using List.find?_some h
    simp [hj]

lemma inodeGet_delete_self (s : St) (ino : Int) : inodeGet (inodeDelete s ino) ino = none := by
  unfold inodeGet inodeDelete
  exact find?_filter_none _ _ _ (fun a ha => by
    simp only [beq_iff_eq] at ha
    simp [ha])

lemma inodeGet_delete_ne (s : St) (ino j : Int) (h : j ≠ ino) :
    inodeGet (inodeDelete s ino) j = inodeGet s j := by
  unfold inodeGet inodeDelete
  exact find?_filter_sub _ _ _ (fun a ha => by
    simp only [beq_iff_eq] at ha
    simp [ha, h])

lemma contentFind_delete_self (s : St) (ino : Int) :
    contentFind (contentDelete s ino) ino = none := by
  unfold contentFind contentDelete
  rw [find?_filter_none _ _ _ (fun a ha => by
    simp only [beq_iff_eq] at ha
    simp [ha])]
  rfl

lemma contentFind_inodeDelete_self (s : St) (ino : Int) :
    contentFind (inodeDelete s ino) ino = none := by
  unfold contentFind inodeDelete
  rw [find?_filter_none _ _ _ (fun a ha => by
    simp only [beq_iff_eq] at ha
    simp [ha])]
  rfl

lemma dirExists_deleteEntry_self (s : St) (p : Int) (nm : String) :
    dirExists (dirDeleteEntry s p nm) p nm = false := by
  unfold dirExists dirDeleteEntry
  induction s.entries with
  | nil => rfl
  | cons e l ih =>
    by_cases hc : (e.parentIno == p && e.name == nm) = true
    · rw [List.filter_cons_of_neg (by simp [hc])]
      exact ih
    · rw [List.filter_cons_of_pos (by simp [hc]), List.any_cons]
      simp only [hc, Bool.false_or]
      exact ih

lemma contentSet_ok (s : St) (ino : Int) (d : List Nat) (h : (inodeGet s ino).isSome = true) :
    ∃ cs, contentSet s ino d = .ok { s with contents := cs } ∧
      cs.find? (fun c => c.ino == ino) = some ⟨ino, d⟩ := by
  unfold contentSet
  rw [if_neg (by simp [Option.isNone_iff_eq_none]; intro hn; rw [hn] at h; simp at h)]
  by_cases hc : (contentFind s ino).isSome = true
  · rw [if_pos hc]
    refine ⟨_, rfl, ?_⟩
    rw [show (fun c : Content => if c.ino == ino then (⟨ino, d⟩ : Content) else c)
        = (fun c : Content => if (c.ino == ino) = true then (⟨ino, d⟩ : Content) else c) by simp]
    rw [find?_map_of_pred_inv _ _ _ (fun a => by by_cases hi : a.ino == ino <;> simp [hi])]
    unfold contentFind at hc
    cases hfind : List.find? (fun c => c.ino == ino) s.contents with
    | none => rw [hfind] at hc; simp at hc
    | some c0 =>
      have hc0 : c0.ino = ino := by simpa using List.find?_some hfind
      simp [hfind, hc0]
  · rw [if_neg hc]
    refine ⟨_, rfl, ?_⟩
    unfold contentFind at hc
    rw [find?_append_of_none]
    · simp [List.find?]
    · cases hfind : List.find? (fun c => c.ino == ino) s.contents with
      | none => rfl
      | some c0 => rw [hfind] at hc; simp at hc

/-! Facts about the name-ascending sort behind `enumerateOrdered`. -/

lemma charListLe_total : ∀ a b : List Char, charListLe a b = true ∨ charListLe b a = true := by
  intro a
  induction a with
  | nil => intro b; left; rfl
  | cons x xs ih =>
    intro b
    cases b with
    | nil => right; rfl
    | cons y ys =>
      unfold charListLe
      by_cases hxy : x.toNat < y.toNat
      · left; simp [hxy]
      · by_cases hyx : y.toNat < x.toNat
        · right; simp [hyx, hxy]
        · rcases ih ys with h | h <;> simp [hxy, hyx, h]

lemma strLe_total (a b : String) : strLe a b = true ∨ strLe b a = true :=
  charListLe_total a.data b.data

lemma mem_insertDirent (d x : Dirent) (l : List Dirent) :
    x ∈ insertDirent d l ↔ x = d ∨ x ∈ l := by
  induction l with
  | nil => simp [insertDirent]
  | cons e es ih =>
    unfold insertDirent
    by_cases h : strLe d.name e.name = true
    · simp [h]
    · simp only [h, if_neg]
      simp [ih]
      tauto

lemma charListLe_trans :
    ∀ a b c : List Char, charListLe a b = true → charListLe b c = true → charListLe a c = true := by
  intro a
  induction a with
  | nil => intro b c _ _; rfl
  | cons x xs ih =>
    intro b c hab hbc
    cases b with
    | nil => exact absurd hab (by simp [charListLe])
    | cons y ys =>
      cases c with
      | nil => exact absurd hbc (by simp [charListLe])
      | cons z zs =>
        unfold charListLe at hab hbc ⊢
        rcases Nat.lt_trichotomy x.toNat y.toNat with h1 | h1 | h1
        · rcases Nat.lt_trichotomy y.toNat z.toNat with h2 | h2 | h2
          · simp [Nat.lt_trans h1 h2]
          · simp [h2 ▸ h1]
          · rw [if_neg (Nat.lt_asymm h2), if_pos h2] at hbc
            exact absurd hbc (by simp)
        · rw [if_neg (by omega), if_neg (by omega)] at hab
          rcases Nat.lt_trichotomy y.toNat z.toNat with h2 | h2 | h2
          · simp [h1 ▸ h2]
          · rw [if_neg (by omega), if_neg (by omega)] at hbc
            rw [if_neg (by omega), if_neg (by omega)]
            exact ih ys zs hab hbc
          · rw [if_neg (Nat.lt_asymm h2), if_pos h2] at hbc
            exact absurd hbc (by simp)
        · rw [if_neg (Nat.lt_asymm h1), if_pos h1] at hab
          exact absurd hab (by simp)

lemma strLe_trans (a b c : String) (hab : strLe a b = true) (hbc : strLe b c = true) :
    strLe a c = true :=
  charListLe_trans a.data b.data c.data hab hbc

lemma pairwise_insertDirent (d : Dirent) (l : List Dirent)
    (h : List.Pairwise (fun a b => strLe a.name b.name = true) l) :
    List.Pairwise (fun a b => strLe a.name b.name = true) (insertDirent d l) := by
  induction l with
  | nil => simp [insertDirent]
  | cons e es ih =>
    rcases List.pairwise_cons.mp h with ⟨he, hes⟩
    unfold insertDirent
    by_cases hde : strLe d.name e.name = true
    · rw [if_pos hde]
      refine List.pairwise_cons.mpr ⟨?_, h⟩
      intro x hx
      cases hx with
      | head => exact hde
      | tail _ hx => exact strLe_trans _ _ _ hde (he x hx)
    · rw [if_neg hde]
      refine List.pairwise_cons.mpr ⟨?_, ih hes⟩
      intro x hx
      rcases (mem_insertDirent d x es).mp hx with rfl | hx
      · rcases strLe_total e.name x.name with hl | hl
        · exact hl
        · exact absurd hl hde
      · exact he x hx

lemma sorted_sortDirents (l : List Dirent) :
    List.Pairwise (fun a b => strLe a.name b.name = true) (sortDirents l) := by
  induction l with
  | nil => exact List.Pairwise.nil
  | cons d ds ih => exact pairwise_insertDirent d (sortDirents ds) ih

lemma perm_insertDirent (d : Dirent) (l : List Dirent) :
    List.Perm (insertDirent d l) (d :: l) := by
  induction l with
  | nil => exact List.Perm.refl _
  | cons e es ih =>
    unfold insertDirent
    by_cases h : strLe d.name e.name = true
    · rw [if_pos h]
    · rw [if_neg h]
      exact (List.Perm.cons e ih).trans (List.Perm.swap d e es)

lemma perm_sortDirents (l : List Dirent) : List.Perm (sortDirents l) l := by
  induction l with
  | nil => exact List.Perm.refl _
  | cons d ds ih => exact (perm_insertDirent d (sortDirents ds)).trans (List.Perm.cons d ih)

/-! Claim theorems. -/


/-- C1.  Atomicity of every multi-step mutation: whatever store step an
injected failure hits (any oracle, any step, including the constraint
violations modelled inside `inodeCreate`/`dirCreateEntry`/`contentSet`),
when CreateFile, CreateDir, Unlink, Rmdir, Write or Link returns an error
the persisted state equals the state before the call — every mutation runs
inside `WithTransaction`, which rolls back the whole body. -/
theorem C1_multi_step_mutations_atomic (fail : Nat → Option FailKind) (s : St)
    (parentIno targetIno ino : Int) (name : String) (mode length : Nat)
    (data : List Nat) (offset : Int) :
    (∀ e, (createFile fail s parentIno name mode).fst = .error e →
      (createFile fail s parentIno name mode).snd = s) ∧
    (∀ e, (createDir fail s parentIno name mode).fst = .error e →
      (createDir fail s parentIno name mode).snd = s) ∧
    (∀ e, (unlink fail s parentIno name).fst = .error e →
      (unlink fail s parentIno name).snd = s) ∧
    (∀ e, (rmdir fail s parentIno name).fst = .error e →
      (rmdir fail s parentIno name).snd = s) ∧
    (∀ e, (write fail s ino data length offset).fst = .error e →
      (write fail s ino data length offset).snd = s) ∧
    (∀ e, (link fail s targetIno parentIno name).fst = .error e →
      (link fail s targetIno parentIno name).snd = s) := by
  refine ⟨?_, ?_, ?_, ?_, ?_, ?_⟩ <;> intro e h
  · unfold createFile at h ⊢
    repeat' split <;> first | rfl | simp_all
  · unfold createDir at h ⊢
    repeat' split <;> first | rfl | simp_all
  · unfold unlink at h ⊢
    repeat' split <;> first | rfl | simp_all
  · unfold rmdir at h ⊢
    repeat' split <;> first | rfl | simp_all
  · unfold write at h ⊢
    repeat' split <;> first | rfl | simp_all
  · unfold link at h ⊢
    repeat' split <;> first | rfl | simp_all

/-- C1 witness: a store failure injected into every step makes CreateFile on
a fresh namespace fail, and the state is unchanged. -/
theorem C1_witness :
    (createFile (fun _ => some FailKind.dbError) initialState 1000 "z" 420).fst
      = .error .internal ∧
    (createFile (fun _ => some FailKind.dbError) initialState 1000 "z" 420).snd
      = initialState :=
  ⟨by decide,
    (C1_multi_step_mutations_atomic (fun _ => some FailKind.dbError) initialState
      1000 1000 1000 "z" 420 0 [] 0).1 .internal (by decide)⟩

/-- C2.  The claimed ref-count identity (for every inode, `ref_count` equals
the number of directory entries targeting it after every sequence of
CreateFile, CreateDir, Link and Unlink operations) fails on the code: from a
fresh namespace, CreateFile root "a" (ino 1001), CreateFile root "b"
(ino 1002), Link target 1002 under parent 1001 (Link never checks that the
parent is a directory), then Unlink root "a" deletes inode 1001 and the
schema's `ON DELETE CASCADE` silently removes the entry (1001, "x") → 1002
without decrementing inode 1002's ref_count: it remains 2 while exactly one
entry targets it. -/
theorem C2_refcount_identity_violated :
    inodeGet c2FinalState 1002 = some { ino := 1002, type := .file, mode := 420, size := 0, refCount := 2 } ∧
    targetCount c2FinalState 1002 = 1 := by
  constructor
  · decide
  · decide

lemma inodeGet_dirDeleteEntry (s : St) (p : Int) (nm : String) (x : Int) :
    inodeGet (dirDeleteEntry s p nm) x = inodeGet s x := rfl

lemma dirExists_inodeDelete_false (x : St) (ino p : Int) (nm : String)
    (h : dirExists x p nm = false) : dirExists (inodeDelete x ino) p nm = false := by
  unfold dirExists inodeDelete at *
  simp only [Bool.eq_false_iff, ne_eq, List.any_eq_true, List.mem_filter, not_exists] at h ⊢
  rintro e ⟨⟨he, -⟩, hp⟩
  exact h e ⟨he, hp⟩

/-- Value of the Unlink transaction body when no store failure is
injected. -/
lemma unlinkTx_noFail (s : St) (parentIno : Int) (name : String) (ino : Int) :
    unlinkTx noFail s parentIno name ino =
      match inodeGet (inodeUpdateRefCount (dirDeleteEntry s parentIno name) ino (-1)) ino with
      | some inode =>
        if inode.refCount == 0 then
          Except.ok (inodeDelete
            (contentDelete (inodeUpdateRefCount (dirDeleteEntry s parentIno name) ino (-1)) ino) ino)
        else Except.ok (inodeUpdateRefCount (dirDeleteEntry s parentIno name) ino (-1))
      | none => Except.ok (inodeUpdateRefCount (dirDeleteEntry s parentIno name) ino (-1)) := rfl

/-- Value of the Rmdir transaction body when no store failure is
injected. -/
lemma rmdirTx_noFail (s : St) (parentIno : Int) (name : String) (ino : Int) :
    rmdirTx noFail s parentIno name ino
      = Except.ok (inodeDelete (dirDeleteEntry s parentIno name) ino) := rfl





/-- The state Rmdir leaves behind: unchanged, or (on the success path) the
state with the entry and the non-root inode deleted. -/
lemma rmdir_snd_cases (fail : Nat → Option FailKind) (s : St) (parentIno : Int) (name : String) :
    (rmdir fail s parentIno name).snd = s ∨
    ((rmdir fail s parentIno name).snd
        = inodeDelete (dirDeleteEntry s parentIno name) (dirLookup s parentIno name) ∧
      (dirLookup s parentIno name == VTFS_ROOT_INO) = false) := by
  unfold rmdir
  simp only []
  repeat' split
  any_goals (left; rfl)
  rename_i hroot hfail2 hempty x s1 heq
  unfold rmdirTx check at heq
  repeat' split at heq
  all_goals try simp only [bind, Except.bind, pure, Except.pure, Except.ok.injEq] at heq
  any_goals exact Except.noConfusion heq
  right
  subst heq
  exact ⟨rfl, by simpa using hroot⟩

/-- C5.  Rmdir addressed at the root inode (the looked-up entry resolves to
ino 1000, which is a directory) always fails with `OperationNotPermitted`
and leaves the state unchanged, regardless of the root's emptiness; and no
Rmdir call — whatever its arguments, state or injected failures — ever
changes the root inode. -/
theorem C5_rmdir_root_protected (s : St) (parentIno : Int) (name : String) :
    (inodeIsDir s VTFS_ROOT_INO = true → dirLookup s parentIno name = VTFS_ROOT_INO →
      rmdir noFail s parentIno name = (.error (.svc EPERM), s)) ∧
    (∀ fail, inodeGet (rmdir fail s parentIno name).snd VTFS_ROOT_INO
      = inodeGet s VTFS_ROOT_INO) := by
  constructor
  · intro hd hl
    unfold rmdir
    rw [hl]
    have hzero : ((VTFS_ROOT_INO : Int) == 0) = false := by decide
    simp [noFail, hd, hzero]
  · intro fail
    rcases rmdir_snd_cases fail s parentIno name with h | ⟨h, hroot⟩
    · rw [h]
    · rw [h, inodeGet_delete_ne, inodeGet_dirDeleteEntry]
      have hne : dirLookup s parentIno name ≠ VTFS_ROOT_INO := by simpa using hroot
      exact fun hcontra => hne hcontra.symm

/-- C5 witness: a crafted state whose root directory carries an entry
resolving to the root inode itself. -/
theorem C5_witness :
    inodeIsDir c5State VTFS_ROOT_INO = true ∧
    dirLookup c5State 1000 "self" = VTFS_ROOT_INO ∧
    rmdir noFail c5State 1000 "self" = (.error (.svc EPERM), c5State) :=
  ⟨by decide, by decide,
    (C5_rmdir_root_protected c5State 1000 "self").1 (by decide) (by decide)⟩

/-- C6.  For an existing non-root directory, Rmdir succeeds exactly when the
directory has zero entries; a non-empty directory makes it fail with
`DirectoryNotEmpty` and leaves the state (directory, entry and contents)
unchanged. -/
theorem C6_rmdir_empty_iff (s : St) (parentIno : Int) (name : String) (ino : Int)
    (hl : dirLookup s parentIno name = ino) (hno : ino ≠ 0)
    (hd : inodeIsDir s ino = true) (hroot : ino ≠ VTFS_ROOT_INO) :
    ((rmdir noFail s parentIno name).fst = .ok () ↔ dirIsEmpty s ino = true) ∧
    (dirIsEmpty s ino = false →
      rmdir noFail s parentIno name = (.error (.svc ENOTEMPTY), s)) := by
  unfold rmdir
  rw [hl]
  by_cases hempty : dirIsEmpty s ino = true
  · simp [noFail, hno, hd, hroot, hempty, rmdirTx_noFail]
  · simp [noFail, hno, hd, hroot, hempty]

/-- C6 witness: removing an empty directory succeeds and removing it while
it holds an entry fails with `ENOTEMPTY`. -/
theorem C6_witness :
    (rmdir noFail c6EmptyState 1000 "d").fst = .ok () ∧
    rmdir noFail c6FullState 1000 "d" = (.error (.svc ENOTEMPTY), c6FullState) :=
  ⟨((C6_rmdir_empty_iff c6EmptyState 1000 "d" 1001 (by decide) (by decide) (by decide)
      (by decide)).1).mpr (by decide),
    (C6_rmdir_empty_iff c6FullState 1000 "d" 1001 (by decide) (by decide) (by decide)
      (by decide)).2 (by decide)⟩

/-- C7.  Unlink: a missing entry fails with `NotFound`; a directory target
fails with `OperationNotPermitted` and changes nothing; a regular-file
target succeeds, the entry disappears, and the target's content and inode
are deleted exactly when the decremented ref_count reaches zero, the inode
surviving with ref_count one lower otherwise. -/
theorem C7_unlink_behavior (s : St) (parentIno : Int) (name : String) :
    (dirLookup s parentIno name = 0 → unlink noFail s parentIno name = (.error (.svc ENOENT), s)) ∧
    (∀ ino i, dirLookup s parentIno name = ino → ino ≠ 0 → inodeGet s ino = some i →
      i.type = .dir → unlink noFail s parentIno name = (.error (.svc EPERM), s)) ∧
    (∀ ino i, dirLookup s parentIno name = ino → ino ≠ 0 → inodeGet s ino = some i →
      i.type = .file →
      (unlink noFail s parentIno name).fst = .ok () ∧
      dirExists (unlink noFail s parentIno name).snd parentIno name = false ∧
      (i.refCount = 1 →
        inodeGet (unlink noFail s parentIno name).snd ino = none ∧
        contentFind (unlink noFail s parentIno name).snd ino = none) ∧
      (i.refCount ≠ 1 →
        inodeGet (unlink noFail s parentIno name).snd ino
          = some { i with refCount := i.refCount - 1 } ∧
        contentFind (unlink noFail s parentIno name).snd ino = contentFind s ino)) := by
  refine ⟨?_, ?_, ?_⟩
  · intro hl
    unfold unlink
    rw [hl]
    simp [noFail]
  · intro ino i hl hno hi hdir
    have hfile : inodeIsFile s ino = false := by
      unfold inodeIsFile
      rw [hi]
      simp [hdir]
    unfold unlink
    rw [hl]
    simp [noFail, hno, hfile]
  · intro ino i hl hno hi hf
    have hfile : inodeIsFile s ino = true := by
      unfold inodeIsFile
      rw [hi]
      simp [hf]
    have hs2 : inodeGet (inodeUpdateRefCount (dirDeleteEntry s parentIno name) ino (-1)) ino
        = some { i with refCount := i.refCount + (-1) } := by
      rw [inodeGet_updateRefCount, inodeGet_dirDeleteEntry, hi]
      rfl
    by_cases hrc : i.refCount = 1
    · have hcond : ((i.refCount + (-1) : Int) == 0) = true := by
        rw [hrc]
        decide
      have hrun : unlink noFail s parentIno name
          = (.ok (), inodeDelete
              (contentDelete (inodeUpdateRefCount (dirDeleteEntry s parentIno name) ino (-1)) ino)
              ino) := by
        unfold unlink
        rw [hl]
        rw [if_neg (show ¬(((noFail 0).isSome) = true) from by simp [noFail])]
        rw [if_neg (show ¬((ino == 0) = true) from by simpa using hno)]
        rw [if_neg (show ¬(((noFail 1).isSome) = true) from by simp [noFail])]
        rw [if_neg (show ¬((!inodeIsFile s ino) = true) from by simp [hfile])]
        simp only [unlinkTx_noFail, hs2, hcond, if_true]
      rw [hrun]
      refine ⟨rfl, ?_, fun _ => ⟨inodeGet_delete_self _ _, contentFind_inodeDelete_self _ _⟩,
        fun hc => absurd hrc hc⟩
      apply dirExists_inodeDelete_false
      exact dirExists_deleteEntry_self s parentIno name
    · have hcond : ((i.refCount + (-1) : Int) == 0) = false := by
        simp only [beq_eq_false_iff_ne, ne_eq]
        omega
      have hrun : unlink noFail s parentIno name
          = (.ok (), inodeUpdateRefCount (dirDeleteEntry s parentIno name) ino (-1)) := by
        unfold unlink
        rw [hl]
        rw [if_neg (show ¬(((noFail 0).isSome) = true) from by simp [noFail])]
        rw [if_neg (show ¬((ino == 0) = true) from by simpa using hno)]
        rw [if_neg (show ¬(((noFail 1).isSome) = true) from by simp [noFail])]
        rw [if_neg (show ¬((!inodeIsFile s ino) = true) from by simp [hfile])]
        simp [unlinkTx_noFail, hs2, hcond]
      rw [hrun]
      refine ⟨rfl, dirExists_deleteEntry_self s parentIno name, fun hc => absurd hc hrc, ?_⟩
      intro _
      refine ⟨?_, rfl⟩
      rw [hs2, Int.sub_eq_add_neg]

/-- C7 witness: unlinking the second hard link of a file (ref_count 2)
keeps the inode with ref_count 1; the entry is gone. -/
theorem C7_witness :
    (unlink noFail c7State 1000 "b").fst = .ok () ∧
    dirExists (unlink noFail c7State 1000 "b").snd 1000 "b" = false ∧
    inodeGet (unlink noFail c7State 1000 "b").snd 1001
      = some { ino := 1001, type := .file, mode := 420, size := 0, refCount := 1 } := by
  have h := ((C7_unlink_behavior c7State 1000 "b").2.2 1001
    { ino := 1001, type := .file, mode := 420, size := 0, refCount := 2 }
    (by decide) (by decide) (by decide) (by decide))
  exact ⟨h.1, h.2.1, (h.2.2.2 (by decide)).1⟩

/-- C8.  The response-frame code the handler emits for a domain error is the
POSITIVE errno value, not its negation: `mapErrorToCode` returns
`ServiceError.Code` unchanged, and every `ServiceError` the service layer
constructs carries a positive kerrors constant.  `Init` on an
already-initialized namespace emits 17, not -17. -/
theorem C8_error_code_not_negated :
    (init noFail initialState).fst = .error (.svc EEXIST) ∧
    responseFrameCode (init noFail initialState).fst = EEXIST ∧
    responseFrameCode (init noFail initialState).fst = 17 ∧
    0 < responseFrameCode (init noFail initialState).fst ∧
    mapErrorToCode (.svc ENOENT) = 2 := by
  refine ⟨by decide, by decide, by decide, by decide, by decide⟩



lemma goCopy_full (dst src : List Nat) (off : Nat) (h : off + src.length ≤ dst.length) :
    goCopy dst off src = dst.take off ++ src ++ dst.drop (off + src.length) := by
  unfold goCopy
  rw [min_eq_left (by omega), List.take_of_length_le (by omega : src.length ≤ dst.length - off)]

lemma contentGet_updateSize (s : St) (ino sz : Int) (x : Int) :
    contentGet (inodeUpdateSize s ino sz) x = contentGet s x := rfl

lemma inodeGet_set_contents (s : St) (cs : List Content) (x : Int) :
    inodeGet { s with contents := cs } x = inodeGet s x := rfl

lemma contentGet_set_contents_find (s : St) (cs : List Content) (ino : Int) (d : List Nat)
    (hfind : cs.find? (fun c => c.ino == ino) = some ⟨ino, d⟩) :
    contentGet { s with contents := cs } ino = d := by
  unfold contentGet contentFind
  rw [show ({ s with contents := cs } : St).contents = cs from rfl, hfind]
  rfl

/-- C3.  Write on an existing regular file whose size is in sync with its
content: for every offset `off ≥ 0` and claimed length `n ≤ |data|` the call
succeeds returning `n`, the stored content becomes the old content
zero-extended to `max |c| (off + n)` with `data[0..n)` spliced in at
position `off`, and the inode size becomes that new length. -/
theorem C3_write_zero_extend_splice (s : St) (ino : Int) (i : Inode) (data : List Nat)
    (n : Nat) (off : Int) (hi : inodeGet s ino = some i) (hf : i.type = .file)
    (hsync : i.size = ((contentGet s ino).length : Int)) (hoff : 0 ≤ off)
    (hn : n ≤ data.length) :
    (write noFail s ino data n off).fst = .ok (n : Int) ∧
    contentGet (write noFail s ino data n off).snd ino
      = (contentGet s ino
            ++ List.replicate (max (contentGet s ino).length (off.toNat + n)
                - (contentGet s ino).length) 0).take off.toNat
        ++ data.take n
        ++ (contentGet s ino
            ++ List.replicate (max (contentGet s ino).length (off.toNat + n)
                - (contentGet s ino).length) 0).drop (off.toNat + n) ∧
    inodeGet (write noFail s ino data n off).snd ino
      = some { i with size := (max (contentGet s ino).length (off.toNat + n) : Int) } := by
  obtain ⟨o, rfl⟩ : ∃ o : Nat, off = (o : Int) := ⟨off.toNat, (Int.toNat_of_nonneg hoff).symm⟩
  have hto : ((o : Int)).toNat = o := Int.toNat_natCast o
  have hwlen : (data.take n).length = n := by
    rw [List.length_take]
    omega
  have hze : goCopy
      (if (o : Int) + ((data.take n).length : Int) > ((contentGet s ino).length : Int)
        then contentGet s ino
          ++ List.replicate ((o : Int) + ((data.take n).length : Int)
              - ((contentGet s ino).length : Int)).toNat 0
        else contentGet s ino) ((o : Int)).toNat (data.take n)
      = (contentGet s ino
            ++ List.replicate (max (contentGet s ino).length (o + n)
                - (contentGet s ino).length) 0).take o
        ++ data.take n
        ++ (contentGet s ino
            ++ List.replicate (max (contentGet s ino).length (o + n)
                - (contentGet s ino).length) 0).drop (o + n) := by
    rw [hto, hwlen]
    by_cases hcase : (contentGet s ino).length < o + n
    · rw [if_pos (by omega)]
      rw [show ((o : Int) + (n : Int) - ((contentGet s ino).length : Int)).toNat
          = max (contentGet s ino).length (o + n) - (contentGet s ino).length by omega]
      rw [goCopy_full _ _ _
        (by simp only [List.length_append, List.length_replicate, List.length_take]; omega)]
      rw [hwlen]
    · rw [if_neg (by omega)]
      rw [show max (contentGet s ino).length (o + n) - (contentGet s ino).length = 0 by omega]
      rw [List.replicate_zero, List.append_nil]
      rw [goCopy_full _ _ _ (by simp only [List.length_take]; omega)]
      rw [hwlen]
  have hlen : (goCopy
      (if (o : Int) + ((data.take n).length : Int) > ((contentGet s ino).length : Int)
        then contentGet s ino
          ++ List.replicate ((o : Int) + ((data.take n).length : Int)
              - ((contentGet s ino).length : Int)).toNat 0
        else contentGet s ino) ((o : Int)).toNat (data.take n)).length
      = max (contentGet s ino).length (o + n) := by
    rw [hze]
    simp only [List.length_append, List.length_take, List.length_drop, List.length_replicate,
      hwlen]
    omega
  obtain ⟨cs, hset, hfind⟩ := contentSet_ok s ino
    (goCopy
      (if (o : Int) + ((data.take n).length : Int) > ((contentGet s ino).length : Int)
        then contentGet s ino
          ++ List.replicate ((o : Int) + ((data.take n).length : Int)
              - ((contentGet s ino).length : Int)).toNat 0
        else contentGet s ino) ((o : Int)).toNat (data.take n))
    (by rw [hi]; rfl)
  have htx : writeTx noFail s ino (data.take n) (o : Int)
      = .ok (inodeUpdateSize { s with contents := cs } ino
          ((max (contentGet s ino).length (o + n) : Nat) : Int)) := by
    unfold writeTx
    simp only [check, noFail, bind, Except.bind, pure, Except.pure]
    rw [hset]
    rw [hlen]
  have hrun : write noFail s ino data n (o : Int)
      = (.ok (n : Int), inodeUpdateSize { s with contents := cs } ino
          ((max (contentGet s ino).length (o + n) : Nat) : Int)) := by
    unfold write
    rw [if_neg (show ¬(n > data.length) by omega)]
    rw [if_neg (show ¬((o : Int) < 0) by omega)]
    rw [if_neg (show ¬(((noFail 0).isSome) = true) from by simp [noFail])]
    rw [hi]
    simp only [hf, bne_self_eq_false, Bool.false_eq_true, if_false, htx]
  refine ⟨by rw [hrun], ?_, ?_⟩
  · rw [hrun]
    show contentGet (inodeUpdateSize { s with contents := cs } ino _) ino = _
    rw [contentGet_updateSize, contentGet_set_contents_find s cs ino _ hfind, hze, hto]
  · rw [hrun]
    show inodeGet (inodeUpdateSize { s with contents := cs } ino _) ino = _
    rw [inodeGet_updateSize, inodeGet_set_contents, hi]
    simp [hto]

/-- C3 witness: writing 5 bytes at offset 10 into a previously empty file
yields a 15-byte file whose first 10 bytes are zero and whose final 5 equal
the written data, with the size synced to 15. -/
theorem C3_witness :
    (write noFail c3State 1001 [7, 8, 9, 10, 11] 5 10).fst = .ok 5 ∧
    contentGet (write noFail c3State 1001 [7, 8, 9, 10, 11] 5 10).snd 1001
      = [0, 0, 0, 0, 0, 0, 0, 0, 0, 0, 7, 8, 9, 10, 11] ∧
    inodeGet (write noFail c3State 1001 [7, 8, 9, 10, 11] 5 10).snd 1001
      = some { ino := 1001, type := .file, mode := 420, size := 15, refCount := 1 } := by
  have h := C3_write_zero_extend_splice c3State 1001
    { ino := 1001, type := .file, mode := 420, size := 0, refCount := 1 }
    [7, 8, 9, 10, 11] 5 10 (by decide) (by decide) (by decide) (by decide) (by decide)
  refine ⟨h.1, ?_, ?_⟩
  · rw [h.2.1]
    decide
  · rw [h.2.2]
    decide

/-- C4.  Read on an existing regular file whose size is in sync with its
content: for every offset `off ≥ 0` it succeeds and returns exactly
`min (requested length) (size - off)` bytes, equal to the content at
positions `off` onwards; at or past end of file it returns zero bytes with
success. -/
theorem C4_read_clamped (s : St) (ino : Int) (i : Inode) (bufLen : Nat) (off : Int)
    (hi : inodeGet s ino = some i) (hf : i.type = .file)
    (hsync : i.size = ((contentGet s ino).length : Int)) (hoff : 0 ≤ off) :
    read noFail s ino bufLen off
      = .ok (((contentGet s ino).drop off.toNat).take (min bufLen (i.size - off).toNat)) ∧
    (((contentGet s ino).drop off.toNat).take (min bufLen (i.size - off).toNat)).length
      = min bufLen (i.size - off).toNat ∧
    (i.size ≤ off →
      read noFail s ino bufLen off = .ok []) := by
  obtain ⟨o, rfl⟩ : ∃ o : Nat, off = (o : Int) := ⟨off.toNat, (Int.toNat_of_nonneg hoff).symm⟩
  have hto : ((o : Int)).toNat = o := Int.toNat_natCast o
  have hmain : read noFail s ino bufLen (o : Int)
      = .ok (((contentGet s ino).drop o).take (min bufLen (i.size - o).toNat)) := by
    unfold read
    rw [if_neg (show ¬(((noFail 0).isSome) = true) from by simp [noFail])]
    rw [hi]
    simp only [hf, bne_self_eq_false, Bool.false_eq_true, if_false]
    rw [if_neg (show ¬((o : Int) < 0) by omega)]
    rw [hsync]
    by_cases heof : ((contentGet s ino).length : Int) - (o : Int) ≤ 0
    · rw [if_pos heof]
      rw [show (((contentGet s ino).length : Int) - (o : Int)).toNat = 0 by omega]
      simp
    · rw [if_neg heof]
      rw [if_neg (show ¬(((noFail 1).isSome) = true) from by simp [noFail])]
      unfold contentGetRange
      rw [if_neg (show ¬((o : Int) ≥ ((contentGet s ino).length : Int)) by omega)]
      simp only []
      rw [hto]
      refine congrArg Except.ok ?_
      refine congrArg₂ List.take ?_ rfl
      split_ifs <;> omega
  refine ⟨hmain, ?_, ?_⟩
  · simp only [List.length_take, List.length_drop]
    omega
  · intro hpast
    rw [hmain]
    rw [show (i.size - (o : Int)).toNat = 0 by omega]
    simp

/-- C4 witness: reading 15 bytes at offset 0 from the 15-byte file returns
all of it, and reading at an offset past end of file returns zero bytes with
success. -/
theorem C4_witness :
    read noFail c4State 1001 15 0 = .ok [0, 0, 0, 0, 0, 0, 0, 0, 0, 0, 7, 8, 9, 10, 11] ∧
    read noFail c4State 1001 4 20 = .ok [] := by
  have h0 := C4_read_clamped c4State 1001
    { ino := 1001, type := .file, mode := 420, size := 15, refCount := 1 }
    15 0 (by decide) (by decide) (by decide) (by decide)
  have h20 := C4_read_clamped c4State 1001
    { ino := 1001, type := .file, mode := 420, size := 15, refCount := 1 }
    4 20 (by decide) (by decide) (by decide) (by decide)
  refine ⟨?_, h20.2.2 (by decide)⟩
  rw [h0.1]
  decide

/-- C9.  IterateDir on a directory: with cursor `k` below the number of
enumerated entries it returns the entry at zero-based position `k` of the
name-ascending enumeration and advances the cursor by exactly one; past the
end it fails with `NotFound` and leaves the cursor unchanged.  The
enumeration is sorted by name ascending and is a permutation of the
directory's (inode-joined) entries. -/
theorem C9_iterateDir_cursor (s : St) (dirIno : Int) (k : Nat)
    (hd : inodeIsDir s dirIno = true) :
    (∀ h : k < (enumerateOrdered s dirIno).length,
      iterateDir noFail s dirIno k
        = (.ok ((enumerateOrdered s dirIno).get ⟨k, h⟩), k + 1)) ∧
    ((enumerateOrdered s dirIno).length ≤ k →
      iterateDir noFail s dirIno k = (.error (.svc ENOENT), k)) ∧
    List.Pairwise (fun a b => strLe a.name b.name = true) (enumerateOrdered s dirIno) ∧
    List.Perm (enumerateOrdered s dirIno)
      ((s.entries.filter (fun e => e.parentIno == dirIno)).filterMap (direntOf s)) := by
  refine ⟨?_, ?_, sorted_sortDirents _, perm_sortDirents _⟩
  · intro h
    unfold iterateDir getEntryByOffset
    rw [if_neg (show ¬(((noFail 0).isSome) = true) from by simp [noFail])]
    rw [if_neg (show ¬((!inodeIsDir s dirIno) = true) from by simp [hd])]
    rw [if_neg (show ¬(((noFail 1).isSome) = true) from by simp [noFail])]
    rw [List.get?_eq_get h]
  · intro h
    unfold iterateDir getEntryByOffset
    rw [if_neg (show ¬(((noFail 0).isSome) = true) from by simp [noFail])]
    rw [if_neg (show ¬((!inodeIsDir s dirIno) = true) from by simp [hd])]
    rw [if_neg (show ¬(((noFail 1).isSome) = true) from by simp [noFail])]
    rw [List.get?_eq_none.mpr h]

/-- C9 witness: iterating the root of a directory holding links "a" and "b"
yields "a" at offset 0 advancing the cursor to 1, and end-of-stream
`NotFound` at offset 2 with the cursor unchanged. -/
theorem C9_witness :
    iterateDir noFail c7State 1000 0 = (.ok ⟨"a", 1001, .file⟩, 1) ∧
    iterateDir noFail c7State 1000 2 = (.error (.svc ENOENT), 2) := by
  constructor
  · rw [(C9_iterateDir_cursor c7State 1000 0 (by decide)).1 (by decide)]
    decide
  · exact (C9_iterateDir_cursor c7State 1000 2 (by decide)).2.1 (by decide)

/-- C10.  Every success path returning a `NodeMeta` reports the mode as the
kind flag (`S_IFDIR` for directories, `S_IFREG` for regular files) bitwise-or
the stored mode's low permission bits; stored bits above 0o777 never reach
the reported mode. -/
theorem C10_reported_mode (s : St) (parentIno : Int) (name : String) (mode : Nat) :
    (∀ m, (getRoot noFail s).fst = .ok m →
      ∃ i s1, fsGetOrCreate s = .ok s1 ∧ inodeGet s1 VTFS_ROOT_INO = some i ∧
        m.mode = metaModeBits i.type i.mode) ∧
    (∀ m, (lookup noFail s parentIno name).fst = .ok m →
      ∃ i, inodeGet s (dirLookup s parentIno name) = some i ∧
        m.mode = metaModeBits i.type i.mode) ∧
    (∀ m, (createFile noFail s parentIno name mode).fst = .ok m →
      m.mode = metaModeBits .file mode) ∧
    (∀ m, (createDir noFail s parentIno name mode).fst = .ok m →
      m.mode = metaModeBits .dir mode) ∧
    (∀ t md, metaModeBits t md = metaModeBits t (md &&& S_IRWXUGO)) ∧
    (∀ md, metaModeBits .dir md = S_IFDIR ||| (md &&& S_IRWXUGO) ∧
      metaModeBits .file md = S_IFREG ||| (md &&& S_IRWXUGO)) := by
  refine ⟨?_, ?_, ?_, ?_, ?_, fun md => ⟨rfl, rfl⟩⟩
  · intro m h
    unfold getRoot at h
    repeat' split at h
    any_goals (exfalso; revert h; simp; done)
    rename_i s1 hfsg hf1 x inode hno
    have hm : mkMeta inode VTFS_ROOT_INO = m := Except.ok.inj h
    exact ⟨inode, s1, hfsg, hno, by rw [← hm]; rfl⟩
  · intro m h
    unfold lookup at h
    simp only [] at h
    repeat' split at h
    any_goals (exfalso; revert h; simp; done)
    rename_i x inode hno
    have hm : mkMeta inode parentIno = m := Except.ok.inj h
    exact ⟨inode, hno, by rw [← hm]; rfl⟩
  · intro m h
    unfold createFile at h
    repeat' split at h
    any_goals (exfalso; revert h; simp; done)
    rename_i x inode s1 heq
    unfold createFileTx getNextIno inodeCreate dirCreateEntry contentSet incrementNextIno check
      at heq
    simp only [noFail, bind, Except.bind, pure, Except.pure] at heq
    repeat' (first
      | (split at heq)
      | (simp only [bind, Except.bind, pure, Except.pure] at heq))
    any_goals exact Except.noConfusion heq
    simp only [Except.ok.injEq, Prod.mk.injEq] at heq
    obtain ⟨hinode, -⟩ := heq
    subst hinode
    have hm := Except.ok.inj h
    rw [← hm]
    rfl
  · intro m h
    unfold createDir at h
    repeat' split at h
    any_goals (exfalso; revert h; simp; done)
    rename_i x inode s1 heq
    unfold createDirTx getNextIno inodeCreate dirCreateEntry incrementNextIno check at heq
    simp only [noFail, bind, Except.bind, pure, Except.pure] at heq
    repeat' (first
      | (split at heq)
      | (simp only [bind, Except.bind, pure, Except.pure] at heq))
    any_goals exact Except.noConfusion heq
    simp only [Except.ok.injEq, Prod.mk.injEq] at heq
    obtain ⟨hinode, -⟩ := heq
    subst hinode
    have hm := Except.ok.inj h
    rw [← hm]
    rfl
  · intro t md
    cases t <;> simp only [metaModeBits, Nat.and_assoc, Nat.and_self]

/-- C10 witness: creating a file with mode 0o4755 (setuid bit set) reports
mode `S_IFREG ||| 0o755` = 33261 — the setuid bit is not reported. -/
theorem C10_witness :
    (createFile noFail initialState 1000 "nf" 2541).fst
      = .ok { ino := 1001, parentIno := 1000, type := .file, mode := 33261, size := 0 } ∧
    ({ ino := 1001, parentIno := 1000, type := .file, mode := 33261, size := 0 } : NodeMeta).mode
      = metaModeBits .file 2541 := by
  refine ⟨by decide, ?_⟩
  exact (C10_reported_mode initialState 1000 "nf" 2541).2.2.1
    { ino := 1001, parentIno := 1000, type := .file, mode := 33261, size := 0 } (by decide)

end VTFS
